import Mathlib

set_option maxHeartbeats 1000000

/-!
Shallow embedding of the core logic of `match_my_resume.py`
(Resume-to-job-matching app).  Text is modelled as `List Char`
restricted to ASCII behaviour of Python string and regex operations
(all call sites in the program use ASCII labels and keywords).
-/

/-- The characters of a string literal, as a list. -/
def chars (s : String) : List Char := s.data

/-- ASCII whitespace, as recognized by the Python regex class \s and by str.strip. -/
def isPySpace (c : Char) : Bool :=
  c = ' ' || c = '\t' || c = '\n' || c = '\r' || c = '\x0b' || c = '\x0c'

/-- Case-insensitive equality of ASCII characters, as used by re.IGNORECASE. -/
def eqCaseless (a b : Char) : Bool := a.toLower == b.toLower

/-- pat matches case-insensitively at the head of s. -/
def caselessStartsWith : List Char → List Char → Bool
  | [], _ => true
  | _ :: _, [] => false
  | a :: as, b :: bs => eqCaseless a b && caselessStartsWith as bs

/-- Remainder of s after the first (leftmost) case-insensitive occurrence of pat,
or none when pat does not occur: where re.search places the end of the literal
part of the pattern. -/
def afterFirstCaseless (pat : List Char) : List Char → Option (List Char)
  | [] => if caselessStartsWith pat [] then some [] else none
  | c :: rest =>
    if caselessStartsWith pat (c :: rest) then some (List.drop pat.length (c :: rest))
    else afterFirstCaseless pat rest

/-- Whether pat occurs case-insensitively anywhere in s. -/
def occursCaseless (pat : List Char) : List Char → Bool
  | [] => caselessStartsWith pat []
  | c :: rest => caselessStartsWith pat (c :: rest) || occursCaseless pat rest

/-- Python str.strip restricted to ASCII whitespace. -/
def pyStrip (s : List Char) : List Char :=
  ((s.dropWhile isPySpace).reverse.dropWhile isPySpace).reverse

/-- extract_field of match_my_resume.py (lines 69-74):
re.search of the pattern field_name followed by a colon, then \s* and the
group (.*), with re.IGNORECASE, on text; returns the stripped group or "".
The field name is interpolated literally into the pattern (all call sites
pass labels without regex metacharacters).  The greedy \s* eats the maximal
whitespace run after the colon -- including newlines -- and the group (.*)
then extends to the next newline or the end of the text. -/
def extract_field (text field_name : List Char) : List Char :=
  match afterFirstCaseless (field_name ++ [':']) text with
  | some rest => pyStrip ((rest.dropWhile isPySpace).takeWhile (fun c => !(c == '\n')))
  | none => []

/-- Field extractor as the specification words it: take the remainder of the
line on which the first case-insensitive occurrence of the label ends
(characters up to end-of-line), trimmed. -/
def extract_field_spec (text field_name : List Char) : List Char :=
  match afterFirstCaseless (field_name ++ [':']) text with
  | some rest => pyStrip (rest.takeWhile (fun c => !(c == '\n')))
  | none => []

/-- Value of a digit run, as Python int applied to the group \d+. -/
def digitsToNat (l : List Char) : Nat :=
  l.foldl (fun acc c => 10 * acc + (c.toNat - 48)) 0

/-- The pattern experience_years:\s*(\d+) (IGNORECASE) matches at the head of s:
the literal part matches and the first character after the maximal whitespace
run is a digit (backtracking into \s* cannot produce a digit, so this is exact). -/
def expMatchHere (s : List Char) : Bool :=
  caselessStartsWith (chars "experience_years:") s &&
    (match (List.drop 17 s).dropWhile isPySpace with
     | [] => false
     | c :: _ => c.isDigit)

/-- The integer value of the group \d+ when the pattern matches at the head of s. -/
def expValueHere (s : List Char) : Nat :=
  digitsToNat (((List.drop 17 s).dropWhile isPySpace).takeWhile Char.isDigit)

/-- extract_experience of match_my_resume.py (lines 77-82):
re.search of experience_years:\s*(\d+) with IGNORECASE; int of the group on a
match, 0 otherwise.  re.search scans left to right for the first position
where the whole pattern matches. -/
def extract_experience : List Char → Int
  | [] => 0
  | c :: rest =>
    if expMatchHere (c :: rest) then (expValueHere (c :: rest) : Int)
    else extract_experience rest

/-- The regex word-character class \w restricted to ASCII. -/
def isWordChar (c : Char) : Bool := c.isAlphanum || c = '_'

/-- Drop a literal pattern from the head of s, or none when it is not there. -/
def dropLiteral : List Char → List Char → Option (List Char)
  | [], s => some s
  | _ :: _, [] => none
  | a :: as, b :: bs => if a == b then dropLiteral as bs else none

/-- kw matches literally at the head of s with a word boundary after it. -/
def kwHere (kw s : List Char) : Bool :=
  match dropLiteral kw s with
  | some [] => true
  | some (c :: _) => !(isWordChar c)
  | none => false

/-- Scan of s for \b kw \b; prevWord records whether the previous character is
a word character (false at the start of the text). -/
def kwSearchAux (kw : List Char) : Bool → List Char → Bool
  | _, [] => false
  | prevWord, c :: rest => (!prevWord && kwHere kw (c :: rest)) || kwSearchAux kw (isWordChar c) rest

/-- re.search of \b kw \b on s succeeds (every keyword of the program starts and
ends with a word character, so the boundaries reduce to the neighbour checks). -/
def containsWord (s kw : List Char) : Bool := kwSearchAux kw false s

/-- re.search of the alternation \b(kw1|kw2|...)\b on s succeeds. -/
def anyKeyword (s : List Char) (kws : List (List Char)) : Bool := kws.any (containsWord s)

/-- The combined text of determine_title: skills, a space, projects, lower-cased. -/
def lowerCombined (skills_text projects_text : List Char) : List Char :=
  (skills_text ++ [' '] ++ projects_text).map Char.toLower

def kws_ds : List (List Char) :=
  [chars "data science", chars "pandas", chars "matplotlib", chars "data analyst"]

def kws_ml : List (List Char) :=
  [chars "machine learning", chars "regression", chars "classification", chars "sklearn"]

def kws_fs : List (List Char) :=
  [chars "full stack", chars "react", chars "node.js", chars "frontend", chars "backend"]

def kws_wd : List (List Char) :=
  [chars "web design", chars "html", chars "css", chars "javascript", chars "web designer"]

def kws_ai : List (List Char) :=
  [chars "artificial intelligence", chars "deep learning"]

def kws_ux : List (List Char) :=
  [chars "ui/ux", chars "figma", chars "adobe xd", chars "user interface", chars "user experience"]

def kws_gd : List (List Char) :=
  [chars "game dev", chars "unity", chars "unreal", chars "game design", chars "game developer"]

/-- The if/elif chain of determine_title (lines 112-127) on the combined text. -/
def classify_core (combined : List Char) : List Char :=
  if anyKeyword combined kws_ds = true then chars "Data Scientist"
  else if anyKeyword combined kws_ml = true then chars "Machine Learning Engineer"
  else if anyKeyword combined kws_fs = true then chars "Full Stack Developer"
  else if anyKeyword combined kws_wd = true then chars "Web Designer"
  else if anyKeyword combined kws_ai = true then chars "AI Engineer"
  else if anyKeyword combined kws_ux = true then chars "UI/UX Designer"
  else if anyKeyword combined kws_gd = true then chars "Game Designer"
  else chars "Unknown"

/-- determine_title of match_my_resume.py (lines 109-127). -/
def determine_title (skills_text projects_text : List Char) : List Char :=
  classify_core (lowerCombined skills_text projects_text)

/-- The ordered rule list of the classifier, as (keyword patterns, label) pairs. -/
def title_rules : List (List (List Char) × List Char) :=
  [(kws_ds, chars "Data Scientist"), (kws_ml, chars "Machine Learning Engineer"),
   (kws_fs, chars "Full Stack Developer"), (kws_wd, chars "Web Designer"),
   (kws_ai, chars "AI Engineer"), (kws_ux, chars "UI/UX Designer"),
   (kws_gd, chars "Game Designer")]

/-- Keyword patterns of the k-th rule. -/
def rule_kws (k : Nat) : List (List Char) := (title_rules.getD k ([], [])).1

/-- Label of the k-th rule. -/
def rule_label (k : Nat) : List Char := (title_rules.getD k ([], [])).2

/-- Python str.title restricted to ASCII: a letter is upper-cased when the
previous character is not a letter and lower-cased otherwise; other
characters pass through and end the current word. -/
def pyTitleAux : Bool → List Char → List Char
  | _, [] => []
  | prevAlpha, c :: rest =>
    (if c.isAlpha then (if prevAlpha then c.toLower else c.toUpper) else c) :: pyTitleAux c.isAlpha rest

/-- Python str.title restricted to ASCII. -/
def pyTitle (s : List Char) : List Char := pyTitleAux false s

/-- Python filename.replace of the four characters dot p d f by the empty
string: removes every non-overlapping occurrence, left to right -- not only a
trailing extension. -/
def removeDotPdf : List Char → List Char
  | '.' :: 'p' :: 'd' :: 'f' :: rest => removeDotPdf rest
  | c :: rest => c :: removeDotPdf rest
  | [] => []

/-- The occurrence of dot p d f at the head of s, as a Bool. -/
def startsDotPdf : List Char → Bool
  | '.' :: 'p' :: 'd' :: 'f' :: _ => true
  | _ => false

/-- Whether dot p d f occurs anywhere in s. -/
def containsDotPdf : List Char → Bool
  | [] => false
  | c :: rest => startsDotPdf (c :: rest) || containsDotPdf rest

/-- One record of the batch aggregator (resume_data of lines 145-153); the
field values mirror the dict keys of the source. -/
structure ResumeRecord where
  name : List Char
  resume_skills : List Char
  projects : List Char
  experience_years : Int
  email : List Char
  resume_title : List Char
deriving DecidableEq

/-- Assembly of one record (lines 143-153): fields extracted from the text of
the document; the name falls back to the filename with every occurrence of
dot p d f removed and then title-cased when the extracted Name field is empty
(Python or picks the second operand on an empty string). -/
def process_resume (filename resume_text : List Char) : ResumeRecord :=
  let nameField := extract_field resume_text (chars "Name")
  { name := if nameField.isEmpty then pyTitle (removeDotPdf filename) else nameField
    resume_skills := extract_field resume_text (chars "resume_skills")
    projects := extract_field resume_text (chars "Projects")
    experience_years := extract_experience resume_text
    email := extract_field resume_text (chars "Email")
    resume_title := determine_title (extract_field resume_text (chars "resume_skills"))
      (extract_field resume_text (chars "Projects")) }

/-- selected_df (line 158): the records whose title is not the unknown sentinel. -/
def selected_df (df : List ResumeRecord) : List ResumeRecord :=
  df.filter (fun r => r.resume_title != chars "Unknown")

/-- rejected_df (line 159): the records whose title is the unknown sentinel. -/
def rejected_df (df : List ResumeRecord) : List ResumeRecord :=
  df.filter (fun r => r.resume_title == chars "Unknown")

/-- The lines of a text, split at newline characters. -/
def linesOf : List Char → List (List Char)
  | [] => [[]]
  | '\n' :: rest => [] :: linesOf rest
  | c :: rest =>
    match linesOf rest with
    | [] => [[c]]
    | l :: ls => (c :: l) :: ls

/-- The transport secrets read from st.secrets (EMAIL and PASSWORD); none
models an absent key. -/
structure Secrets where
  email : Option (List Char)
  password : Option (List Char)

/-- Python truthiness of the two secrets: send_email proceeds past its guard
iff both are present and non-empty. -/
def credsOk (s : Secrets) : Bool :=
  (match s.email with | none => false | some e => !e.isEmpty) &&
  (match s.password with | none => false | some p => !p.isEmpty)

/-- send_email (lines 85-106).  The SMTP delivery is abstracted by the
transport oracle (recipient, subject, body to success).  The result records
whether the transport was reached at all (first component) and the Bool the
function returns (second component): on missing or empty credentials it
returns False before any SMTP contact; otherwise the transport is attempted
and an exception is reported as a warning and returns False. -/
def send_email (secrets : Secrets) (transport : List Char → List Char → List Char → Bool)
    (recipient subject body : List Char) : Bool × Bool :=
  if credsOk secrets then (true, transport recipient subject body) else (false, false)

/-- Character number 39. -/
def apos : Char := Char.ofNat 39

/-- Character number 8217, the right single quotation mark of the body text. -/
def rsquo : Char := Char.ofNat 8217

/-- Subject of the message to a selected candidate (line 213). -/
def selected_subject : List Char :=
  chars "Congratulations! You" ++ apos :: chars "ve Been Selected"

/-- Body of the message to a selected candidate (line 214). -/
def selected_body (r : ResumeRecord) : List Char :=
  chars "Hi " ++ r.name ++ chars ", you" ++ rsquo :: chars "ve been selected for the role: "
    ++ r.resume_title ++ chars "!"

/-- Subject of the message to a rejected candidate (line 221). -/
def rejected_subject : List Char := chars "Application Update"

/-- Body of the message to a rejected candidate (line 222). -/
def rejected_body : List Char :=
  chars "Sorry, your profile is not matching this job. We will meet soon."

/-- One of the two loops of the Send Emails handler (lines 210-224): records
with an empty email are skipped; otherwise send_email is called and a True
result increments the counter.  Returns the counter and, left to right, the
recipients for which the transport was reached. -/
def email_loop (secrets : Secrets) (transport : List Char → List Char → List Char → Bool)
    (subject : List Char) (body : ResumeRecord → List Char) :
    List ResumeRecord → Nat × List (List Char)
  | [] => (0, [])
  | r :: rest =>
    let tl := email_loop secrets transport subject body rest
    if r.email.isEmpty then tl
    else
      let res := send_email secrets transport r.email subject (body r)
      ((if res.2 then 1 else 0) + tl.1, (if res.1 then [r.email] else []) ++ tl.2)

/-- The Send Emails button handler (lines 206-226): the selected loop, then
the rejected loop; returns (selected_sent, rejected_sent, transport calls in
order). -/
def send_emails_handler (secrets : Secrets)
    (transport : List Char → List Char → List Char → Bool)
    (selected rejected : List ResumeRecord) : Nat × Nat × List (List Char) :=
  let s := email_loop secrets transport selected_subject selected_body selected
  let rj := email_loop secrets transport rejected_subject (fun _ => rejected_body) rejected
  (s.1, rj.1, s.2 ++ rj.2)

/-- The fallback name as the specification words it: the filename with its
trailing extension stripped (title-casing applies afterwards). -/
def stripTrailingPdf (s : List Char) : List Char :=
  if (chars ".pdf").isSuffixOf s then s.take (s.length - 4) else s

/-- A batch of three processed documents of which exactly one classifies as
unknown. -/
def batch3 : List ResumeRecord :=
  [process_resume (chars "a.pdf") (chars "resume_skills: pandas"),
   process_resume (chars "b.pdf") (chars "resume_skills: unity"),
   process_resume (chars "c.pdf") (chars "resume_skills: gardening")]

/-- Present, non-empty transport credentials. -/
def demoSecrets : Secrets := ⟨some (chars "sender@x"), some (chars "pw")⟩

/-- Two records with a recipient address and one without. -/
def demoMatched : List ResumeRecord :=
  [⟨chars "A", [], [], 0, chars "a@x", chars "Data Scientist"⟩,
   ⟨chars "B", [], [], 0, chars "b@x", chars "Web Designer"⟩,
   ⟨chars "C", [], [], 0, [], chars "AI Engineer"⟩]

/-! Helper lemmas. -/

theorem startsDotPdf_iff (s : List Char) :
    startsDotPdf s = true ↔ ∃ r, s = '.' :: 'p' :: 'd' :: 'f' :: r := by
  constructor
  · intro h
    unfold startsDotPdf at h
    split at h
    · next r => exact ⟨_, rfl⟩
    · exact absurd h (by simp)
  · rintro ⟨r, rfl⟩; rfl

theorem removeDotPdf_cons_eq (c : Char) (rest : List Char) :
    removeDotPdf (c :: rest) =
      if startsDotPdf (c :: rest) then removeDotPdf (List.drop 3 rest)
      else c :: removeDotPdf rest := by
  rw [removeDotPdf.eq_def]
  split
  · next r heq =>
    injection heq with h1 h2
    subst h1; subst h2
    simp [startsDotPdf]
  · next x y hne heq =>
    injection heq with h1 h2
    subst h1; subst h2
    have hf : startsDotPdf (c :: rest) = false := by
      rw [Bool.eq_false_iff]
      intro ht
      obtain ⟨r, hr⟩ := (startsDotPdf_iff _).1 ht
      injection hr with hc hrest
      exact hne r hc hrest
    simp [hf]
  · next heq => exact absurd heq (by simp)

theorem startsDotPdf_append_false (c : Char) (b : List Char)
    (h1 : startsDotPdf (c :: b) = false) :
    startsDotPdf (c :: (b ++ chars ".pdf")) = false := by
  rw [Bool.eq_false_iff]
  intro ht
  obtain ⟨r, hr⟩ := (startsDotPdf_iff _).1 ht
  injection hr with hc he2
  subst hc
  match b, he2 with
  | [], he2 =>
    injection he2 with h3 h4
    exact absurd h3 (by decide)
  | [x], he2 =>
    injection he2 with h3 he2
    injection he2 with h4 h5
    exact absurd h4 (by decide)
  | [x, y], he2 =>
    injection he2 with h3 he2
    injection he2 with h4 he2
    injection he2 with h5 h6
    exact absurd h5 (by decide)
  | x :: y :: z :: b2, he2 =>
    injection he2 with h3 he2
    injection he2 with h4 he2
    injection he2 with h5 he2
    subst h3; subst h4; subst h5
    exact absurd ((startsDotPdf_iff _).2 ⟨b2, rfl⟩) (by simp [h1])

/-- Removing every occurrence of the extension string from a filename that
ends with it, and whose stem is free of it, strips exactly the trailing
extension. -/
theorem removeDotPdf_append (base : List Char) (h : containsDotPdf base = false) :
    removeDotPdf (base ++ chars ".pdf") = base := by
  induction base with
  | nil => decide
  | cons c b ih =>
    rw [containsDotPdf, Bool.or_eq_false_iff] at h
    rw [List.cons_append, removeDotPdf_cons_eq, startsDotPdf_append_false c b h.1]
    simp [ih h.2]

theorem afterFirstCaseless_eq_none (pat t : List Char) (h : occursCaseless pat t = false) :
    afterFirstCaseless pat t = none := by
  induction t with
  | nil =>
    rw [occursCaseless] at h
    rw [afterFirstCaseless]
    simp [h]
  | cons c rest ih =>
    rw [occursCaseless, Bool.or_eq_false_iff] at h
    rw [afterFirstCaseless]
    simp [h.1, ih h.2]

theorem extract_field_no_occurrence (text label : List Char)
    (h : occursCaseless (label ++ [':']) text = false) : extract_field text label = [] := by
  unfold extract_field
  rw [afterFirstCaseless_eq_none _ _ h]

theorem extract_experience_no_occurrence (t : List Char)
    (h : occursCaseless (chars "experience_years:") t = false) : extract_experience t = 0 := by
  induction t with
  | nil => rfl
  | cons c rest ih =>
    rw [occursCaseless, Bool.or_eq_false_iff] at h
    rw [extract_experience]
    have hm : expMatchHere (c :: rest) = false := by
      unfold expMatchHere
      rw [h.1]
      rfl
    simp [hm, ih h.2]

theorem extract_experience_nonneg (t : List Char) : 0 ≤ extract_experience t := by
  induction t with
  | nil => simp [extract_experience]
  | cons c rest ih =>
    rw [extract_experience]
    split
    · exact Int.natCast_nonneg _
    · exact ih

theorem pyStrip_cons_of_space (c : Char) (xs : List Char) (h : isPySpace c = true) :
    pyStrip (c :: xs) = pyStrip xs := by
  simp [pyStrip, List.dropWhile_cons, h]

theorem strip_line_agrees (rest : List Char) (h : '\n' ∉ rest.takeWhile isPySpace) :
    pyStrip ((rest.dropWhile isPySpace).takeWhile (fun c => !(c == '\n')))
      = pyStrip (rest.takeWhile (fun c => !(c == '\n'))) := by
  induction rest with
  | nil => rfl
  | cons c r ih =>
    by_cases hc : isPySpace c = true
    · simp only [List.takeWhile_cons, hc, if_true, List.mem_cons, not_or] at h
      have hcn : c ≠ '\n' := fun he => h.1 he.symm
      rw [List.dropWhile_cons]
      simp only [hc, if_true]
      rw [ih h.2, List.takeWhile_cons]
      have hb : (!(c == '\n')) = true := by simp [hcn]
      rw [hb]
      simp only [if_true]
      rw [pyStrip_cons_of_space c _ hc]
    · simp [List.dropWhile_cons, hc]

theorem length_filter_not_add {α : Type} (p : α → Bool) (l : List α) :
    (l.filter fun a => !(p a)).length + (l.filter p).length = l.length := by
  induction l with
  | nil => rfl
  | cons a l ih =>
    by_cases h : p a = true <;> simp [List.filter_cons, h] <;> omega

theorem email_loop_noCreds (secrets : Secrets) (transport : List Char → List Char → List Char → Bool)
    (subject : List Char) (body : ResumeRecord → List Char) (l : List ResumeRecord)
    (h : credsOk secrets = false) :
    email_loop secrets transport subject body l = (0, []) := by
  induction l with
  | nil => rfl
  | cons r rest ih =>
    rw [email_loop, ih]
    by_cases he : r.email.isEmpty = true
    · simp [he]
    · simp [he, send_email, h]

theorem email_loop_calls (secrets : Secrets) (transport : List Char → List Char → List Char → Bool)
    (subject : List Char) (body : ResumeRecord → List Char) (l : List ResumeRecord)
    (h : credsOk secrets = true) :
    (email_loop secrets transport subject body l).2
      = ((l.filter fun r => !r.email.isEmpty).map fun r => r.email) := by
  induction l with
  | nil => rfl
  | cons r rest ih =>
    rw [email_loop, List.filter_cons]
    by_cases he : r.email.isEmpty = true
    · simp [he, ih]
    · simp [he, send_email, h, ih]

theorem email_loop_count (secrets : Secrets) (transport : List Char → List Char → List Char → Bool)
    (subject : List Char) (body : ResumeRecord → List Char) (l : List ResumeRecord)
    (h : credsOk secrets = true) :
    (email_loop secrets transport subject body l).1
      = ((l.filter fun r => !r.email.isEmpty).filter
          fun r => transport r.email subject (body r)).length := by
  induction l with
  | nil => rfl
  | cons r rest ih =>
    rw [email_loop, List.filter_cons]
    by_cases he : r.email.isEmpty = true
    · simp [he, ih]
    · by_cases ht : transport r.email subject (body r) = true
      · simp [he, send_email, h, ht, List.filter_cons, ih]
        omega
      · simp [he, send_email, h, ht, List.filter_cons, ih]

theorem email_loop_count_le (secrets : Secrets) (transport : List Char → List Char → List Char → Bool)
    (subject : List Char) (body : ResumeRecord → List Char) (l : List ResumeRecord) :
    (email_loop secrets transport subject body l).1
      ≤ (l.filter fun r => !r.email.isEmpty).length := by
  by_cases h : credsOk secrets = true
  · rw [email_loop_count _ _ _ _ _ h]
    exact List.length_filter_le _ _
  · rw [email_loop_noCreds _ _ _ _ _ (Bool.eq_false_iff.mpr h)]
    exact Nat.zero_le _


/-! Claim theorems. -/

/-- C1 counterexample: the text built from the two lines Surname: Bob and
Name: Alice contains Name: Alice on a line, yet extract_field with label Name
returns Bob -- the case-insensitive search finds name: inside Surname: first
-- so the claimed value Alice is not returned. -/
theorem extract_field_line_counterexample :
    chars "Name: Alice" ∈ linesOf ((chars "Surname: Bob") ++ '\n' :: chars "Name: Alice")
    ∧ extract_field ((chars "Surname: Bob") ++ '\n' :: chars "Name: Alice") (chars "Name")
        = chars "Bob"
    ∧ chars "Bob" ≠ chars "Alice" :=
  ⟨by decide, by decide, by decide⟩

/-- C1 (amended): extract_field performs a case-insensitive search for the
first occurrence of the label followed by a colon anywhere in the text; when
no occurrence exists it returns the empty string; whenever the whitespace run
after the colon stays on the same line, the result is the trimmed remainder
of that line exactly as the specification words it; and the text Name: Alice
yields Alice for the label Name. -/
theorem extract_field_amended :
    (∀ text label, occursCaseless (label ++ [':']) text = false → extract_field text label = [])
    ∧ (∀ text label rest, afterFirstCaseless (label ++ [':']) text = some rest →
        '\n' ∉ rest.takeWhile isPySpace →
        extract_field text label = extract_field_spec text label)
    ∧ extract_field (chars "Name: Alice") (chars "Name") = chars "Alice" := by
  refine ⟨extract_field_no_occurrence, ?_, by decide⟩
  intro text label rest h hnl
  unfold extract_field extract_field_spec
  rw [h]
  exact strip_line_agrees rest hnl

/-- C1 witness: the amended theorem applied at concrete inputs -- a text with
no Email occurrence yields the empty string, and on Name: Alice the code
agrees with the line-based description of the specification. -/
theorem extract_field_amended_witness :
    (occursCaseless ((chars "Email") ++ [':']) (chars "hello world") = false
      ∧ extract_field (chars "hello world") (chars "Email") = [])
    ∧ (afterFirstCaseless ((chars "Name") ++ [':']) (chars "Name: Alice") = some (chars " Alice")
      ∧ '\n' ∉ (chars " Alice").takeWhile isPySpace
      ∧ extract_field (chars "Name: Alice") (chars "Name")
          = extract_field_spec (chars "Name: Alice") (chars "Name")) :=
  ⟨⟨by decide, extract_field_amended.1 (chars "hello world") (chars "Email") (by decide)⟩,
   ⟨by decide, by decide,
     extract_field_amended.2.1 (chars "Name: Alice") (chars "Name") (chars " Alice")
       (by decide) (by decide)⟩⟩

/-- C2: extract_experience parses the digits after a case-insensitive
experience_years: occurrence (5 and 12 on the examples), returns 0 when the
field is absent or not followed by digits, and is never negative. -/
theorem extract_experience_contract :
    extract_experience (chars "experience_years: 5") = 5
    ∧ extract_experience (chars "no such field") = 0
    ∧ extract_experience (chars "EXPERIENCE_YEARS: 12") = 12
    ∧ extract_experience (chars "experience_years: abc") = 0
    ∧ (∀ t, occursCaseless (chars "experience_years:") t = false → extract_experience t = 0)
    ∧ (∀ t, 0 ≤ extract_experience t) :=
  ⟨by decide, by decide, by decide, by decide,
   extract_experience_no_occurrence, extract_experience_nonneg⟩

/-- C2 witness: the absence clause of the contract applied at a concrete text. -/
theorem extract_experience_contract_witness :
    occursCaseless (chars "experience_years:") (chars "nothing here") = false
    ∧ extract_experience (chars "nothing here") = 0 :=
  ⟨by decide, extract_experience_contract.2.2.2.2.1 (chars "nothing here") (by decide)⟩

/-- C3: the classifier applies its seven rules in order with first-match-wins
semantics -- whenever rule k matches the combined text and no earlier rule
does, the result is the label of rule k -- and on the two examples it returns
Data Scientist and Game Designer. -/
theorem determine_title_first_match :
    (∀ s p k, k < 7 → anyKeyword (lowerCombined s p) (rule_kws k) = true →
      ((List.range k).all fun j => !(anyKeyword (lowerCombined s p) (rule_kws j))) = true →
      determine_title s p = rule_label k)
    ∧ determine_title (chars "I use pandas and matplotlib") [] = chars "Data Scientist"
    ∧ determine_title (chars "unity game developer") [] = chars "Game Designer" := by
  refine ⟨?_, by decide, by decide⟩
  intro s p k hk hm hall
  rw [List.all_eq_true] at hall
  interval_cases k
  · have m0 : anyKeyword (lowerCombined s p) kws_ds = true := hm
    show classify_core (lowerCombined s p) = chars "Data Scientist"
    simp [classify_core, m0]
  · have e0 : anyKeyword (lowerCombined s p) kws_ds = false := by
      simpa using hall 0 (by decide)
    have m1 : anyKeyword (lowerCombined s p) kws_ml = true := hm
    show classify_core (lowerCombined s p) = chars "Machine Learning Engineer"
    simp [classify_core, e0, m1]
  · have e0 : anyKeyword (lowerCombined s p) kws_ds = false := by
      simpa using hall 0 (by decide)
    have e1 : anyKeyword (lowerCombined s p) kws_ml = false := by
      simpa using hall 1 (by decide)
    have m2 : anyKeyword (lowerCombined s p) kws_fs = true := hm
    show classify_core (lowerCombined s p) = chars "Full Stack Developer"
    simp [classify_core, e0, e1, m2]
  · have e0 : anyKeyword (lowerCombined s p) kws_ds = false := by
      simpa using hall 0 (by decide)
    have e1 : anyKeyword (lowerCombined s p) kws_ml = false := by
      simpa using hall 1 (by decide)
    have e2 : anyKeyword (lowerCombined s p) kws_fs = false := by
      simpa using hall 2 (by decide)
    have m3 : anyKeyword (lowerCombined s p) kws_wd = true := hm
    show classify_core (lowerCombined s p) = chars "Web Designer"
    simp [classify_core, e0, e1, e2, m3]
  · have e0 : anyKeyword (lowerCombined s p) kws_ds = false := by
      simpa using hall 0 (by decide)
    have e1 : anyKeyword (lowerCombined s p) kws_ml = false := by
      simpa using hall 1 (by decide)
    have e2 : anyKeyword (lowerCombined s p) kws_fs = false := by
      simpa using hall 2 (by decide)
    have e3 : anyKeyword (lowerCombined s p) kws_wd = false := by
      simpa using hall 3 (by decide)
    have m4 : anyKeyword (lowerCombined s p) kws_ai = true := hm
    show classify_core (lowerCombined s p) = chars "AI Engineer"
    simp [classify_core, e0, e1, e2, e3, m4]
  · have e0 : anyKeyword (lowerCombined s p) kws_ds = false := by
      simpa using hall 0 (by decide)
    have e1 : anyKeyword (lowerCombined s p) kws_ml = false := by
      simpa using hall 1 (by decide)
    have e2 : anyKeyword (lowerCombined s p) kws_fs = false := by
      simpa using hall 2 (by decide)
    have e3 : anyKeyword (lowerCombined s p) kws_wd = false := by
      simpa using hall 3 (by decide)
    have e4 : anyKeyword (lowerCombined s p) kws_ai = false := by
      simpa using hall 4 (by decide)
    have m5 : anyKeyword (lowerCombined s p) kws_ux = true := hm
    show classify_core (lowerCombined s p) = chars "UI/UX Designer"
    simp [classify_core, e0, e1, e2, e3, e4, m5]
  · have e0 : anyKeyword (lowerCombined s p) kws_ds = false := by
      simpa using hall 0 (by decide)
    have e1 : anyKeyword (lowerCombined s p) kws_ml = false := by
      simpa using hall 1 (by decide)
    have e2 : anyKeyword (lowerCombined s p) kws_fs = false := by
      simpa using hall 2 (by decide)
    have e3 : anyKeyword (lowerCombined s p) kws_wd = false := by
      simpa using hall 3 (by decide)
    have e4 : anyKeyword (lowerCombined s p) kws_ai = false := by
      simpa using hall 4 (by decide)
    have e5 : anyKeyword (lowerCombined s p) kws_ux = false := by
      simpa using hall 5 (by decide)
    have m6 : anyKeyword (lowerCombined s p) kws_gd = true := hm
    show classify_core (lowerCombined s p) = chars "Game Designer"
    simp [classify_core, e0, e1, e2, e3, e4, e5, m6]

/-- C3 witness: the first-match statement applied at rule index 1 (the ML
rule) on a text matching only that rule. -/
theorem determine_title_first_match_witness :
    (1 < 7 ∧ anyKeyword (lowerCombined (chars "sklearn") []) (rule_kws 1) = true
      ∧ ((List.range 1).all
          fun j => !(anyKeyword (lowerCombined (chars "sklearn") []) (rule_kws j))) = true)
    ∧ determine_title (chars "sklearn") [] = rule_label 1 :=
  ⟨⟨by decide, by decide, by decide⟩,
   determine_title_first_match.1 (chars "sklearn") [] 1 (by decide) (by decide) (by decide)⟩

/-- C4: the classifier result is always one of the seven fixed labels or the
Unknown sentinel; it depends only on the lower-cased concatenation of skills,
a space, and projects; and on two empty inputs it returns Unknown. -/
theorem classifier_range :
    (∀ s p, determine_title s p ∈
      [chars "Data Scientist", chars "Machine Learning Engineer", chars "Full Stack Developer",
       chars "Web Designer", chars "AI Engineer", chars "UI/UX Designer", chars "Game Designer",
       chars "Unknown"])
    ∧ (∀ s p t q, lowerCombined s p = lowerCombined t q →
        determine_title s p = determine_title t q)
    ∧ determine_title [] [] = chars "Unknown" := by
  refine ⟨?_, ?_, by decide⟩
  · intro s p
    unfold determine_title classify_core
    split_ifs <;> decide
  · intro s p t q h
    unfold determine_title
    rw [h]

/-- C4 witness: the dependence on the lower-cased combined text applied to an
upper-cased and a lower-cased spelling of the same skills. -/
theorem classifier_range_witness :
    lowerCombined (chars "PANDAS") [] = lowerCombined (chars "pandas") []
    ∧ determine_title (chars "PANDAS") [] = determine_title (chars "pandas") [] :=
  ⟨by decide, classifier_range.2.1 (chars "PANDAS") [] (chars "pandas") [] (by decide)⟩

/-- C5: a record is in selected_df iff it is in the batch and its title is not
Unknown, rejected_df holds exactly the Unknown records, the two sizes always
sum to the batch size, and on a batch of three documents of which one
classifies as unknown the sizes are 2 and 1. -/
theorem partition_contract :
    (∀ df r, r ∈ selected_df df ↔ r ∈ df ∧ r.resume_title ≠ chars "Unknown")
    ∧ (∀ df r, r ∈ rejected_df df ↔ r ∈ df ∧ r.resume_title = chars "Unknown")
    ∧ (∀ df, (selected_df df).length + (rejected_df df).length = df.length)
    ∧ (selected_df batch3).length = 2 ∧ (rejected_df batch3).length = 1
    ∧ batch3.length = 3 := by
  refine ⟨?_, ?_, ?_, by decide, by decide, by decide⟩
  · intro df r
    simp [selected_df, List.mem_filter, bne_iff_ne]
  · intro df r
    simp [rejected_df, List.mem_filter]
  · intro df
    have h : selected_df df
        = df.filter fun r => !((fun r : ResumeRecord => r.resume_title == chars "Unknown") r) :=
      rfl
    rw [h]
    exact length_filter_not_add _ df

/-- C6 counterexample: for the filename a.pdfb.pdf with no Name field in the
text, the code removes every occurrence of .pdf and title-cases, giving Ab,
while stripping only the trailing extension and title-casing would give
A.Pdfb -- so the fallback is not the filename with its extension stripped. -/
theorem name_fallback_counterexample :
    (process_resume (chars "a.pdfb.pdf") []).name = chars "Ab"
    ∧ pyTitle (stripTrailingPdf (chars "a.pdfb.pdf")) = chars "A.Pdfb"
    ∧ chars "Ab" ≠ chars "A.Pdfb" :=
  ⟨by decide, by decide, by decide⟩

/-- C6 (amended): the record name is the extracted Name field when non-empty;
otherwise it is the filename with every occurrence of the substring .pdf
removed, title-cased -- which equals the filename minus its trailing .pdf
extension whenever .pdf occurs nowhere in the stem, as on john_doe.pdf which
yields John_Doe. -/
theorem name_fallback_amended :
    (∀ filename text, extract_field text (chars "Name") ≠ [] →
      (process_resume filename text).name = extract_field text (chars "Name"))
    ∧ (∀ filename text, extract_field text (chars "Name") = [] →
      (process_resume filename text).name = pyTitle (removeDotPdf filename))
    ∧ (∀ base, containsDotPdf base = false → removeDotPdf (base ++ chars ".pdf") = base)
    ∧ (process_resume (chars "john_doe.pdf") []).name = chars "John_Doe" := by
  refine ⟨?_, ?_, removeDotPdf_append, by decide⟩
  · intro filename text h
    have he : (extract_field text (chars "Name")).isEmpty = false := by
      cases hx : extract_field text (chars "Name") with
      | nil => exact absurd hx h
      | cons a l => rfl
    simp [process_resume, he]
  · intro filename text h
    simp [process_resume, h]

/-- C6 witness: the amended name rule applied at concrete inputs -- a text
with a Name field keeps the extracted name, and removing .pdf occurrences
from john_doe.pdf strips exactly the extension. -/
theorem name_fallback_amended_witness :
    (extract_field (chars "Name: Alice") (chars "Name") ≠ []
      ∧ (process_resume (chars "x.pdf") (chars "Name: Alice")).name
          = extract_field (chars "Name: Alice") (chars "Name"))
    ∧ (containsDotPdf (chars "john_doe") = false
      ∧ removeDotPdf ((chars "john_doe") ++ chars ".pdf") = chars "john_doe") :=
  ⟨⟨by decide, name_fallback_amended.1 (chars "x.pdf") (chars "Name: Alice") (by decide)⟩,
   ⟨by decide, name_fallback_amended.2.2.1 (chars "john_doe") (by decide)⟩⟩

/-- C7: when the transport credentials are missing or empty, the Send Emails
handler reaches the transport for no record at all and both reported success
counts are 0, for every batch. -/
theorem missing_creds_no_sends :
    ∀ (secrets : Secrets) (transport : List Char → List Char → List Char → Bool)
      (selected rejected : List ResumeRecord), credsOk secrets = false →
      send_emails_handler secrets transport selected rejected = (0, 0, []) := by
  intro secrets transport sel rej h
  simp only [send_emails_handler]
  rw [email_loop_noCreds _ _ _ _ _ h, email_loop_noCreds _ _ _ _ _ h]
  rfl

/-- C7 witness: the no-send statement applied with both secrets absent, on a
batch containing records with recipient addresses. -/
theorem missing_creds_no_sends_witness :
    credsOk ⟨none, none⟩ = false
    ∧ send_emails_handler ⟨none, none⟩ (fun _ _ _ => true) demoMatched [] = (0, 0, []) :=
  ⟨by decide,
   missing_creds_no_sends ⟨none, none⟩ (fun _ _ _ => true) demoMatched [] (by decide)⟩

/-- C8: with credentials present, the dispatch attempts exactly one transport
send per record with a non-empty address, first the selected then the
rejected set in order; each success counter counts exactly the successful
transports of its set and never exceeds the number of its records with an
address; on the demo batch of 2 addressed records and 1 without, exactly 2
attempts occur and, with one failing transport, the counter is 1. -/
theorem dispatch_contract :
    (∀ (secrets : Secrets) (transport : List Char → List Char → List Char → Bool)
        (sel rej : List ResumeRecord), credsOk secrets = true →
      (send_emails_handler secrets transport sel rej).2.2 =
        ((sel.filter fun r => !r.email.isEmpty).map fun r => r.email)
          ++ ((rej.filter fun r => !r.email.isEmpty).map fun r => r.email))
    ∧ (∀ (secrets : Secrets) (transport : List Char → List Char → List Char → Bool)
        (sel rej : List ResumeRecord), credsOk secrets = true →
      (send_emails_handler secrets transport sel rej).1 =
        ((sel.filter fun r => !r.email.isEmpty).filter
          fun r => transport r.email selected_subject (selected_body r)).length)
    ∧ (∀ (secrets : Secrets) (transport : List Char → List Char → List Char → Bool)
        (sel rej : List ResumeRecord),
      (send_emails_handler secrets transport sel rej).1
          ≤ (sel.filter fun r => !r.email.isEmpty).length
      ∧ (send_emails_handler secrets transport sel rej).2.1
          ≤ (rej.filter fun r => !r.email.isEmpty).length)
    ∧ (send_emails_handler demoSecrets (fun r _ _ => r == chars "a@x") demoMatched []).2.2
        = [chars "a@x", chars "b@x"]
    ∧ (send_emails_handler demoSecrets (fun r _ _ => r == chars "a@x") demoMatched []).1 = 1 := by
  refine ⟨?_, ?_, ?_, by decide, by decide⟩
  · intro secrets transport sel rej h
    simp only [send_emails_handler]
    rw [email_loop_calls _ _ _ _ _ h, email_loop_calls _ _ _ _ _ h]
  · intro secrets transport sel rej h
    simp only [send_emails_handler]
    rw [email_loop_count _ _ _ _ _ h]
  · intro secrets transport sel rej
    constructor
    · simp only [send_emails_handler]
      exact email_loop_count_le _ _ _ _ _
    · simp only [send_emails_handler]
      exact email_loop_count_le _ _ _ _ _

/-- C8 witness: the attempt-list statement applied with present credentials
on the demo batch: both addressed records are attempted in order. -/
theorem dispatch_contract_witness :
    credsOk demoSecrets = true
    ∧ (send_emails_handler demoSecrets (fun _ _ _ => true) demoMatched []).2.2
        = ((demoMatched.filter fun r => !r.email.isEmpty).map fun r => r.email)
          ++ (([] : List ResumeRecord).filter fun r => !r.email.isEmpty).map (fun r => r.email) :=
  ⟨by decide, dispatch_contract.1 demoSecrets (fun _ _ _ => true) demoMatched [] (by decide)⟩

/-- C9: the empty text yields empty extracted fields for every label, zero
experience years, and the Unknown title; a record processed from an
empty-text document therefore has empty skills, projects and email, zero
experience and the Unknown title, whatever its filename. -/
theorem empty_text_defaults :
    (∀ label, extract_field [] label = [])
    ∧ extract_experience [] = 0
    ∧ determine_title [] [] = chars "Unknown"
    ∧ (∀ filename,
        (process_resume filename []).resume_skills = []
        ∧ (process_resume filename []).projects = []
        ∧ (process_resume filename []).email = []
        ∧ (process_resume filename []).experience_years = 0
        ∧ (process_resume filename []).resume_title = chars "Unknown") := by
  refine ⟨?_, by decide, by decide, ?_⟩
  · intro label
    cases label <;> rfl
  · intro filename
    exact ⟨rfl, rfl, rfl, rfl, rfl⟩

/-- C10: extract_field matches the label anywhere in the text, not only at a
line start or word boundary: the one-line text Nickname: Bob has no line
starting (case-insensitively) with Name:, yet the label Name extracts the
non-empty value Bob from inside the line of the longer word. -/
theorem label_substring_match :
    extract_field (chars "Nickname: Bob") (chars "Name") = chars "Bob"
    ∧ chars "Bob" ≠ []
    ∧ ((linesOf (chars "Nickname: Bob")).all
        fun l => !(caselessStartsWith (chars "Name:") l)) = true :=
  ⟨by decide, by decide, by decide⟩
